import Mathlib

/-!
# RewriteGuard — formal model of the metered-inference gateway

A shallow embedding of the RewriteGuard backend core: the Quota Ledger
(per-user-per-day word counters over the `daily_usage` table of
`src/unnamed/part_006`), the content-addressed TTL Cache Store
(`src/backend/README.md`, Redis caching section), the Content
Fingerprinter, and the Gateway request pipeline (`src/unnamed/part_000`,
spec §4.5).  The service code for these components is not present under
`src/` — only the SQL declarations, the API documentation and the
frontend callers are — so the operations are modelled from the spec,
with each such definition marked `Modelled from the spec:`.
-/

namespace RewriteGuard

/-- The two metered operations of the gateway (detect / paraphrase),
matching the `words_detect` / `words_paraphrase` columns of the
`daily_usage` table. -/
inductive Operation
  | detect
  | paraphrase
  deriving DecidableEq, Repr

/-- Plan tier, from the `plan_type` column of `users`
(`src/unnamed/part_006`): `free` or `premium`. -/
inductive PlanType
  | free
  | premium
  deriving DecidableEq, Repr

/-- Daily word limits per plan, from the comment in
`src/unnamed/part_006`: free 1,000 words/day, premium 10,000 words/day. -/
def dailyLimit : PlanType → Nat
  | .free => 1000
  | .premium => 10000

/-- Key of a `daily_usage` row: the `UNIQUE(user_id, usage_date)` pair of
`src/unnamed/part_006`.  Dates are modelled as day numbers. -/
structure UsageKey where
  user_id : Nat
  usage_date : Nat
  deriving DecidableEq, Repr

/-- A `daily_usage` row (`src/unnamed/part_006`, lines 7-16): word
counters for the two operations, both defaulting to 0. -/
structure DailyUsageRecord where
  words_detect : Nat
  words_paraphrase : Nat
  deriving DecidableEq, Repr

/-- Total words reserved on a `daily_usage` row. -/
def DailyUsageRecord.total (r : DailyUsageRecord) : Nat :=
  r.words_detect + r.words_paraphrase

/-- Add `w` words to the counter of the given operation. -/
def DailyUsageRecord.addWords (r : DailyUsageRecord) (op : Operation) (w : Nat) :
    DailyUsageRecord :=
  match op with
  | .detect => { r with words_detect := r.words_detect + w }
  | .paraphrase => { r with words_paraphrase := r.words_paraphrase + w }

/-- The quota ledger: the `daily_usage` table as a total map from
`(user_id, usage_date)` to a usage row; rows are created lazily, so an
absent row reads as zero counters. -/
def Ledger := UsageKey → DailyUsageRecord

/-- The ledger before any usage: every row reads as zeros. -/
def emptyLedger : Ledger := fun _ => ⟨0, 0⟩

/-- Point update of one `daily_usage` row. -/
def Ledger.update (led : Ledger) (k : UsageKey) (r : DailyUsageRecord) : Ledger :=
  fun k2 => if k2 = k then r else led k2

/-- Result of a quota reservation, spec §4.3:
`reserve -> (allowed, words_remaining) | QuotaExceeded`.  The remaining
count is an integer since a boundary-crossing admission may drive it
negative. -/
inductive ReserveResult
  | allowed (words_remaining : Int)
  | quotaExceeded (words_remaining : Int)
  deriving DecidableEq, Repr

/-- Whether a reservation was rejected. -/
def ReserveResult.isExceeded : ReserveResult → Bool
  | .allowed _ => false
  | .quotaExceeded _ => true

/-- Modelled from the spec: `Quota Ledger.reserve` (§4.3); the service
code is absent from `src/` (only the `daily_usage` declaration in
`src/unnamed/part_006` is present).  The read-compare-increment is one
indivisible step per `(user_id, usage_date)` key.  Policy: a request is
admitted iff the limit had not yet been reached at the moment of
reservation (current total < limit), so the boundary-crossing request
completes and remaining may go negative or zero; once the total has
reached the limit, requests are rejected with `QuotaExceeded`. -/
def reserve (led : Ledger) (k : UsageKey) (limit : Nat) (w : Nat) (op : Operation) :
    ReserveResult × Ledger :=
  let cur := (led k).total
  if cur < limit then
    (.allowed ((limit : Int) - (cur + w)),
     led.update k ((led k).addWords op w))
  else
    (.quotaExceeded ((limit : Int) - cur), led)

/-- Run a sequence of reservations for one key atomically, one after the
other, collecting the per-request results and the final ledger. -/
def runReserves (k : UsageKey) (limit : Nat) (op : Operation) :
    Ledger → List Nat → List ReserveResult × Ledger
  | led, [] => ([], led)
  | led, w :: ws =>
    let step := reserve led k limit w op
    let rest := runReserves k limit op step.2 ws
    (step.1 :: rest.1, rest.2)

/-- Sum of the word counts of the admitted requests in a run, pairing
each request's word count with its result. -/
def admittedWords : List (Nat × ReserveResult) → Nat
  | [] => 0
  | (w, .allowed _) :: rest => w + admittedWords rest
  | (_, .quotaExceeded _) :: rest => admittedWords rest

/-! ### Basic ledger lemmas -/

theorem DailyUsageRecord.total_addWords (r : DailyUsageRecord) (op : Operation) (w : Nat) :
    (r.addWords op w).total = r.total + w := by
  cases op <;> simp [DailyUsageRecord.addWords, DailyUsageRecord.total] <;> ring

theorem Ledger.update_same (led : Ledger) (k : UsageKey) (r : DailyUsageRecord) :
    led.update k r k = r := by
  simp [Ledger.update]

theorem Ledger.update_other (led : Ledger) (k k2 : UsageKey) (r : DailyUsageRecord)
    (h : k2 ≠ k) : led.update k r k2 = led k2 := by
  simp [Ledger.update, h]

/-- Admission case of `reserve`: whenever the current total is below the
limit the request is admitted (even if it crosses the limit), the row
gains `w` words, and the remaining count is limit minus the new total. -/
theorem reserve_allowed (led : Ledger) (k : UsageKey) (limit w : Nat) (op : Operation)
    (h : (led k).total < limit) :
    reserve led k limit w op =
      (.allowed ((limit : Int) - ((led k).total + w)),
       led.update k ((led k).addWords op w)) := by
  simp [reserve, h]

/-- Rejection case of `reserve`: once the total has reached the limit the
request is rejected and the ledger is left unchanged. -/
theorem reserve_exceeded (led : Ledger) (k : UsageKey) (limit w : Nat) (op : Operation)
    (h : limit ≤ (led k).total) :
    reserve led k limit w op = (.quotaExceeded ((limit : Int) - (led k).total), led) := by
  simp [reserve, Nat.not_lt.mpr h]

/-- `reserve` touches only its own `(user_id, usage_date)` row. -/
theorem reserve_frame (led : Ledger) (k k2 : UsageKey) (limit w : Nat) (op : Operation)
    (h : k2 ≠ k) : (reserve led k limit w op).2 k2 = led k2 := by
  by_cases hc : (led k).total < limit
  · simp [reserve, hc, Ledger.update, h]
  · simp [reserve, hc]

/-- The total of a run's final row is the initial total plus the word
counts of exactly the admitted requests: no reservation update is lost. -/
theorem runReserves_total (k : UsageKey) (limit : Nat) (op : Operation) :
    ∀ (ws : List Nat) (led : Ledger),
      (((runReserves k limit op led ws).2) k).total =
        (led k).total + admittedWords (ws.zip (runReserves k limit op led ws).1) := by
  intro ws
  induction ws with
  | nil => intro led; simp [runReserves, admittedWords]
  | cons w ws ih =>
    intro led
    by_cases h : (led k).total < limit
    · simp only [runReserves, reserve_allowed led k limit w op h, List.zip_cons_cons,
        admittedWords, ih]
      rw [Ledger.update_same, DailyUsageRecord.total_addWords]
      ring
    · simp only [runReserves, reserve_exceeded led k limit w op (Nat.not_lt.mp h),
        List.zip_cons_cons, admittedWords, ih]

/-- Invariant: if every request in the run asks for at most `W` words and
the row's total is at most `limit + W`, it stays at most `limit + W`. -/
theorem runReserves_total_le (k : UsageKey) (limit W : Nat) (op : Operation) :
    ∀ (ws : List Nat) (led : Ledger), (∀ w ∈ ws, w ≤ W) →
      (led k).total ≤ limit + W →
      (((runReserves k limit op led ws).2) k).total ≤ limit + W := by
  intro ws
  induction ws with
  | nil => intro led _ h; simpa [runReserves] using h
  | cons w ws ih =>
    intro led hw h
    by_cases hc : (led k).total < limit
    · simp only [runReserves, reserve_allowed led k limit w op hc]
      apply ih _ (fun x hx => hw x (List.mem_cons_of_mem _ hx))
      rw [Ledger.update_same, DailyUsageRecord.total_addWords]
      have hwW : w ≤ W := hw w (List.mem_cons_self _ _)
      omega
    · simp only [runReserves, reserve_exceeded led k limit w op (Nat.not_lt.mp hc)]
      exact ih _ (fun x hx => hw x (List.mem_cons_of_mem _ hx)) h

/-- Once a row's total has reached the limit, every later reservation on
that key is rejected and the ledger never changes again. -/
theorem runReserves_all_exceeded (k : UsageKey) (limit : Nat) (op : Operation) :
    ∀ (ws : List Nat) (led : Ledger), limit ≤ (led k).total →
      ((runReserves k limit op led ws).1.all ReserveResult.isExceeded ∧
       (runReserves k limit op led ws).2 = led) := by
  intro ws
  induction ws with
  | nil => intro led _; simp [runReserves]
  | cons w ws ih =>
    intro led h
    have hstep := reserve_exceeded led k limit w op h
    have hrest := ih led h
    simp only [runReserves, hstep, List.all_cons, hrest.1, hrest.2,
      ReserveResult.isExceeded, Bool.and_self, and_self, true_and]

/-! ### Content Fingerprinter -/

/-- Output-affecting parameters of a request, from the cache-key recipe
in `src/backend/README.md` (SHA256 of text + mode + temperature +
max_length).  Temperature is carried in fixed-point thousandths so the
model stays over the integers. -/
structure Params where
  temperature_milli : Nat
  max_length : Nat
  deriving DecidableEq, Repr

/-- Canonical name of an operation, the `mode` part of the cache key. -/
def Operation.name : Operation → String
  | .detect => "detect"
  | .paraphrase => "paraphrase"

/-- Canonical encoding of the tuple that feeds the cache key, from
`src/backend/README.md`: `text + mode + temperature + max_length`. -/
def canonicalEncoding (text : String) (op : Operation) (p : Params) : String :=
  text ++ "|" ++ op.name ++ "|" ++ toString p.temperature_milli ++ "|" ++
    toString p.max_length

/-- A cache key: a fixed-width 256-bit digest value. -/
abbrev CacheKey := Fin (2 ^ 256)

/-- Modelled from the spec: the SHA-256 digest used for cache keys is an
external primitive; it is modelled by a concrete deterministic function
from strings into the same fixed 256-bit range. -/
def digest256 (s : String) : CacheKey :=
  ⟨(s.data.foldl (fun a c => (a * 131 + c.toNat) % 2 ^ 256) 5381) % 2 ^ 256,
   Nat.mod_lt _ (Nat.lt_of_lt_of_le Nat.zero_lt_one Nat.one_le_two_pow)⟩

/-- The content fingerprint (spec §4.1, `src/backend/README.md` cache-key
recipe): a fixed-width key computed deterministically over the canonical
encoding of (text, operation, params).  User identity is not an input. -/
def fingerprint (text : String) (op : Operation) (p : Params) : CacheKey :=
  digest256 (canonicalEncoding text op p)

/-! ### Cache Store -/

/-- A cache entry (spec §3 CacheEntry): serialized result plus creation
and expiry instants (seconds). -/
structure CacheEntry where
  value : String
  created_at : Nat
  expires_at : Nat
  deriving DecidableEq, Repr

/-- The content-addressed cache store: key to entry, absent keys read as
`none`.  Entries are never proactively swept, only lazily ignored past
expiry. -/
def CacheStore := CacheKey → Option CacheEntry

/-- The empty cache. -/
def emptyCache : CacheStore := fun _ => none

/-- Modelled from the spec: `Cache Store.get` (§4.2); the Redis-backed
service code is absent from `src/` (only the caching section of
`src/backend/README.md` is present).  Lazy expiry: an entry is returned
only while `now` is strictly before its `expires_at`; once `expires_at`
has passed the lookup is a miss. -/
def cacheGet (c : CacheStore) (k : CacheKey) (now : Nat) : Option String :=
  match c k with
  | none => none
  | some e => if now < e.expires_at then some e.value else none

/-- Modelled from the spec: `Cache Store.put` (§4.2): store the value
under the key with `expires_at = now + ttl`, overwriting any previous
entry. -/
def cachePut (c : CacheStore) (k : CacheKey) (v : String) (ttl : Nat) (now : Nat) :
    CacheStore :=
  fun k2 => if k2 = k then some ⟨v, now, now + ttl⟩ else c k2

/-- Default cache TTL in seconds, `PARAPHRASE_CACHE_TTL` of
`src/backend/README.md`. -/
def PARAPHRASE_CACHE_TTL : Nat := 3600

/-- A mutating cache-store operation (a timed `put`). -/
structure CacheOp where
  key : CacheKey
  value : String
  ttl : Nat
  at_time : Nat

/-- Apply a sequence of cache operations in order. -/
def applyCacheOps (c : CacheStore) : List CacheOp → CacheStore
  | [] => c
  | o :: os => applyCacheOps (cachePut c o.key o.value o.ttl o.at_time) os

/-! ### Job records, logging, metrics -/

/-- Bound on the stored input preview, from `src/unnamed/part_000`
(Logging: truncated preview, first 50 chars). -/
def PREVIEW_LEN : Nat := 50

/-- Modelled from the spec: the bounded input preview written to job
records and log lines (`src/unnamed/part_000`, Logging; spec §7); the
code writing them is absent from `src/`.  The first `PREVIEW_LEN`
characters of the text. -/
def preview (text : String) : String :=
  ⟨text.data.take PREVIEW_LEN⟩

/-- Terminal status of a request, for the audit record. -/
inductive JobStatus
  | completed
  | failed
  deriving DecidableEq, Repr

/-- Modelled from the spec: a JobRecord (spec §3): append-only audit
entry (user, operation, input preview, word count, status); the `jobs`
table is declared in `src/backend/ddl/001_create_tables.sql` but the
code writing rows to it is absent from `src/`. -/
structure JobRecord where
  user_id : Nat
  operation : Operation
  input_preview : String
  word_count : Nat
  status : JobStatus
  deriving DecidableEq, Repr

/-- Modelled from the spec: one log line (spec §7, `src/unnamed/part_000`
Logging): operation, text length and bounded text preview. -/
structure LogEntry where
  operation : Operation
  text_length : Nat
  text_preview : String
  deriving DecidableEq, Repr

/-- Modelled from the spec: bounded operational counters of the Metrics
Aggregator that the claims touch (spec §4.4). -/
structure Metrics where
  success_count : Nat
  error_count : Nat
  timeout_count : Nat
  cache_hits : Nat
  deriving DecidableEq, Repr

def Metrics.recordSuccess (m : Metrics) (hit : Bool) : Metrics :=
  { m with success_count := m.success_count + 1,
           cache_hits := m.cache_hits + (if hit then 1 else 0) }

def Metrics.recordError (m : Metrics) : Metrics :=
  { m with error_count := m.error_count + 1 }

def Metrics.recordTimeout (m : Metrics) : Metrics :=
  { m with timeout_count := m.timeout_count + 1 }

/-! ### Gateway -/

/-- Observable side steps of request processing, used to state what a
rejected request must not have done. -/
inductive Event
  | fingerprintComputed
  | cacheLookup
  | inferenceCall
  deriving DecidableEq, Repr

/-- A request as the Gateway receives it (spec §4.5): identity and tier
are supplied already authenticated. -/
structure Request where
  user_id : Nat
  date : Nat
  limit : Nat
  operation : Operation
  text : String
  params : Params

/-- The usage-row key a request charges. -/
def Request.key (req : Request) : UsageKey :=
  ⟨req.user_id, req.date⟩

/-- The cache key the Gateway computes for a request: the fingerprint of
its content tuple only. -/
def Request.cacheKey (req : Request) : CacheKey :=
  fingerprint req.text req.operation req.params

/-- Number of maximal space-free runs in a character list: the word
count, with `inWord` saying whether a word is already open. -/
def wordCountAux : List Char → Bool → Nat
  | [], _ => 0
  | c :: cs, inWord =>
    if c = ' ' then wordCountAux cs false
    else (if inWord then 0 else 1) + wordCountAux cs true

/-- Modelled from the spec: word count of the submitted text (spec §4.5
step 1); the code is absent from `src/`.  Counts space-separated words. -/
def wordCount (text : String) : Nat :=
  wordCountAux text.data false

/-- Input validation for the detect endpoint, from `src/unnamed/part_000`
(`DetectRequest`: text with min=1, max=20000). -/
def validDetectText (text : String) : Bool :=
  decide (1 ≤ text.length) && decide (text.length ≤ 20000)

/-- Request validation: detect requests must satisfy the documented
length bounds; rejected requests get HTTP 422 before anything else runs. -/
def validateRequest (req : Request) : Bool :=
  match req.operation with
  | .detect => validDetectText req.text
  | .paraphrase => true

/-- Outcome of the inference collaborator (spec §6):
`infer -> result | Timeout | ModelError`. -/
inductive InferOutcome
  | success (payload : String)
  | timeout
  | modelError

/-- Result returned to the caller by `process` (spec §6). -/
inductive ProcessResult
  | ok (payload : String) (cache_hit : Bool)
  | quotaRejected (words_remaining : Int)
  | validationFailed
  | timedOut
  | internalFailure
  | quotaStoreUnavailable
  deriving DecidableEq, Repr

/-- All gateway-visible state: quota ledger, cache, metrics, audit
records and logs. -/
structure GatewayState where
  ledger : Ledger
  cache : CacheStore
  metrics : Metrics
  jobs : List JobRecord
  logs : List LogEntry

/-- Append the audit record and log line of a finished request. -/
def GatewayState.finishRecords (st : GatewayState) (req : Request) (s : JobStatus) :
    GatewayState :=
  { st with
      jobs := st.jobs ++ [⟨req.user_id, req.operation, preview req.text,
                           wordCount req.text, s⟩],
      logs := st.logs ++ [⟨req.operation, req.text.length, preview req.text⟩] }

/-- Modelled from the spec: the Gateway pipeline `process` (spec §4.5,
§6, §7), whose code is absent from `src/`.  `quotaUp` / `cacheUp` say
whether the two backing stores are reachable.  Steps: validate (422
before anything is charged), fail closed if the quota store is
unreachable, reserve quota (on `QuotaExceeded` return at once, touching
nothing else), fingerprint and look up the cache (an unreachable cache
reads as a miss and its `put` is a no-op), and otherwise invoke the
inference collaborator, caching only successful results. -/
def process (infer : Operation → String → Params → InferOutcome)
    (now : Nat) (quotaUp cacheUp : Bool) (st : GatewayState) (req : Request) :
    ProcessResult × GatewayState × List Event :=
  if validateRequest req = false then
    (.validationFailed, st, [])
  else if quotaUp = false then
    (.quotaStoreUnavailable, st, [])
  else
    let w := wordCount req.text
    let step := reserve st.ledger req.key req.limit w req.operation
    match step.1 with
    | .quotaExceeded r =>
        (.quotaRejected r, { st with ledger := step.2 }, [])
    | .allowed _ =>
        let st1 : GatewayState := { st with ledger := step.2 }
        let key := req.cacheKey
        let cached := if cacheUp then cacheGet st1.cache key now else none
        match cached with
        | some v =>
            (.ok v true,
             ({ st1 with metrics := st1.metrics.recordSuccess true
              }).finishRecords req .completed,
             [.fingerprintComputed, .cacheLookup])
        | none =>
            match infer req.operation req.text req.params with
            | .success payload =>
                let cache2 := if cacheUp then
                    cachePut st1.cache key payload PARAPHRASE_CACHE_TTL now
                  else st1.cache
                (.ok payload false,
                 ({ st1 with cache := cache2,
                             metrics := st1.metrics.recordSuccess false
                  }).finishRecords req .completed,
                 [.fingerprintComputed, .cacheLookup, .inferenceCall])
            | .timeout =>
                (.timedOut,
                 ({ st1 with metrics := st1.metrics.recordTimeout
                  }).finishRecords req .failed,
                 [.fingerprintComputed, .cacheLookup, .inferenceCall])
            | .modelError =>
                (.internalFailure,
                 ({ st1 with metrics := st1.metrics.recordError
                  }).finishRecords req .failed,
                 [.fingerprintComputed, .cacheLookup, .inferenceCall])

/-! ### Claim theorems: Quota Ledger -/

/-- C1: for every daily limit `L` and every set of reservation requests
from a single user each asking `W` words on the same date — applied as
indivisible read-compare-increment steps per `(user, date)` key, in any
order — the total reserved for that key never exceeds `L + W`, and no
update is lost: the final total is exactly the sum of the admitted
requests' word counts. -/
theorem C1_quota_reservation_atomic (L W : Nat) (k : UsageKey) (op : Operation)
    (ws : List Nat) (hW : ∀ w ∈ ws, w = W) :
    (((runReserves k L op emptyLedger ws).2) k).total ≤ L + W ∧
    (((runReserves k L op emptyLedger ws).2) k).total =
      admittedWords (ws.zip (runReserves k L op emptyLedger ws).1) := by
  constructor
  · exact runReserves_total_le k L W op ws emptyLedger
      (fun w h => le_of_eq (hW w h)) (by simp [emptyLedger, DailyUsageRecord.total])
  · have h := runReserves_total k L op ws emptyLedger
    simpa [emptyLedger, DailyUsageRecord.total] using h

/-- Witness for C1: ten concurrent 4-word requests against limit 10;
total reserved stays at most 14 and equals the admitted sum. -/
theorem C1_quota_reservation_atomic_witness :
    (((runReserves ⟨1, 0⟩ 10 .detect emptyLedger [4, 4, 4, 4, 4, 4, 4, 4, 4, 4]).2) ⟨1, 0⟩).total ≤ 14 ∧
    (((runReserves ⟨1, 0⟩ 10 .detect emptyLedger [4, 4, 4, 4, 4, 4, 4, 4, 4, 4]).2) ⟨1, 0⟩).total =
      admittedWords ([4, 4, 4, 4, 4, 4, 4, 4, 4, 4].zip
        (runReserves ⟨1, 0⟩ 10 .detect emptyLedger [4, 4, 4, 4, 4, 4, 4, 4, 4, 4]).1) :=
  C1_quota_reservation_atomic 10 4 ⟨1, 0⟩ .detect [4, 4, 4, 4, 4, 4, 4, 4, 4, 4]
    (by decide)

/-- C2: a reservation is admitted whenever the row's total is still below
the limit at the moment of reservation — even when its word count crosses
the limit, so remaining may go to zero or negative; once the total has
reached the limit every subsequent reservation for that key is rejected
with `QuotaExceeded`; and a reservation touches no other `(user, date)`
row, so a different date starts from its own (fresh) counter. -/
theorem C2_boundary_crossing_policy (led : Ledger) (k : UsageKey) (L w : Nat)
    (op : Operation) :
    ((led k).total < L →
      reserve led k L w op =
        (.allowed ((L : Int) - ((led k).total + w)),
         led.update k ((led k).addWords op w))) ∧
    (L ≤ (led k).total →
      reserve led k L w op = (.quotaExceeded ((L : Int) - (led k).total), led)) ∧
    ((led k).total < L → L ≤ (led k).total + w →
      ∀ (ws : List Nat) (op2 : Operation),
        (runReserves k L op2 (reserve led k L w op).2 ws).1.all
          ReserveResult.isExceeded) ∧
    (∀ k2, k2 ≠ k → (reserve led k L w op).2 k2 = led k2) := by
  refine ⟨fun h => reserve_allowed led k L w op h,
          fun h => reserve_exceeded led k L w op h,
          fun h1 h2 ws op2 => ?_,
          fun k2 h => reserve_frame led k k2 L w op h⟩
  have hled : ((reserve led k L w op).2 k).total = (led k).total + w := by
    rw [reserve_allowed led k L w op h1]
    simp [Ledger.update_same, DailyUsageRecord.total_addWords]
  exact (runReserves_all_exceeded k L op2 ws (reserve led k L w op).2
    (hled ▸ h2)).1

/-- Witness for C2: limit 5, first request of 8 words crosses the
boundary and is admitted with remaining −3, after which 3- and 2-word
requests are both rejected; an untouched second-date row stays empty. -/
theorem C2_boundary_crossing_policy_witness :
    (reserve emptyLedger ⟨1, 0⟩ 5 8 .detect =
      (.allowed (-3),
       emptyLedger.update ⟨1, 0⟩ ((emptyLedger ⟨1, 0⟩).addWords .detect 8))) ∧
    (runReserves ⟨1, 0⟩ 5 .detect (reserve emptyLedger ⟨1, 0⟩ 5 8 .detect).2
        [3, 2]).1.all ReserveResult.isExceeded ∧
    (reserve emptyLedger ⟨1, 0⟩ 5 8 .detect).2 ⟨1, 1⟩ = emptyLedger ⟨1, 1⟩ := by
  refine ⟨?_, ?_, ?_⟩
  · have h := (C2_boundary_crossing_policy emptyLedger ⟨1, 0⟩ 5 8 .detect).1
      (by decide)
    simpa using h
  · exact (C2_boundary_crossing_policy emptyLedger ⟨1, 0⟩ 5 8 .detect).2.2.1
      (by decide) (by decide) [3, 2] .detect
  · exact (C2_boundary_crossing_policy emptyLedger ⟨1, 0⟩ 5 8 .detect).2.2.2
      ⟨1, 1⟩ (by decide)

/-- C3 counterexample: under the ledger policy of spec §4.3
(boundary-crossing requests are admitted while the total is below the
limit), the free-tier scenario 600, 800, 300 against limit 1000 does NOT
produce the claimed outcomes allowed 400 / QuotaExceeded 400 /
allowed 100 — the 800-word request is admitted, since only 600 < 1000
words were reserved at its reservation moment. -/
theorem C3_scenario_counterexample :
    (runReserves ⟨1, 0⟩ (dailyLimit .free) .detect emptyLedger [600, 800, 300]).1 ≠
      [.allowed 400, .quotaExceeded 400, .allowed 100] := by
  decide

/-- C3 amended: the sequential free-tier scenario 600, 800, 300 against
limit 1000 yields allowed remaining 400, then allowed remaining −400 (the
boundary-crossing admission), then QuotaExceeded remaining −400. -/
theorem C3_scenario_amended :
    (runReserves ⟨1, 0⟩ (dailyLimit .free) .detect emptyLedger [600, 800, 300]).1 =
      [.allowed 400, .allowed (-400), .quotaExceeded (-400)] := by
  decide

/-! ### Claim theorems: Cache Store and Fingerprinter -/

/-- C5: `put(k, v, ttl)` followed by `get(k)` strictly before the expiry
instant returns `v` unchanged; from the expiry instant on it returns a
miss; and after any sequence of cache operations, a successful `get`
only ever returns an entry whose `expires_at` is still in the future —
an entry is never returned once `expires_at` has passed. -/
theorem C5_cache_ttl_semantics :
    (∀ (c : CacheStore) (k : CacheKey) (v : String) (ttl t0 t : Nat),
        t < t0 + ttl → cacheGet (cachePut c k v ttl t0) k t = some v) ∧
    (∀ (c : CacheStore) (k : CacheKey) (v : String) (ttl t0 t : Nat),
        t0 + ttl ≤ t → cacheGet (cachePut c k v ttl t0) k t = none) ∧
    (∀ (ops : List CacheOp) (c0 : CacheStore) (k : CacheKey) (now : Nat) (v : String),
        cacheGet (applyCacheOps c0 ops) k now = some v →
        ∃ e, applyCacheOps c0 ops k = some e ∧ e.value = v ∧ now < e.expires_at) := by
  refine ⟨fun c k v ttl t0 t h => ?_, fun c k v ttl t0 t h => ?_,
          fun ops c0 k now v h => ?_⟩
  · simp [cacheGet, cachePut, h]
  · simp [cacheGet, cachePut, Nat.not_lt.mpr h]
  · revert h
    unfold cacheGet
    cases hk : applyCacheOps c0 ops k with
    | none => intro h; cases h
    | some e =>
      by_cases he : now < e.expires_at
      · intro h
        simp only [he, if_true] at h
        exact ⟨e, rfl, (Option.some.injEq _ _).mp h, he⟩
      · intro h
        simp [he] at h

/-- Witness for C5 at concrete inputs: a fresh entry with TTL 3600 put at
time 0 is returned at time 10, missed at time 3600, and the returned
entry's expiry bound is produced by the general invariant. -/
theorem C5_cache_ttl_semantics_witness :
    (cacheGet (cachePut emptyCache (digest256 "k") "r" 3600 0) (digest256 "k") 10 =
      some "r") ∧
    (cacheGet (cachePut emptyCache (digest256 "k") "r" 3600 0) (digest256 "k") 3600 =
      none) ∧
    (∃ e, applyCacheOps emptyCache [⟨digest256 "k", "r", 3600, 0⟩] (digest256 "k") =
            some e ∧ e.value = "r" ∧ 10 < e.expires_at) :=
  ⟨C5_cache_ttl_semantics.1 emptyCache (digest256 "k") "r" 3600 0 10 (by decide),
   C5_cache_ttl_semantics.2.1 emptyCache (digest256 "k") "r" 3600 0 3600 (by decide),
   C5_cache_ttl_semantics.2.2 [⟨digest256 "k", "r", 3600, 0⟩] emptyCache
     (digest256 "k") 10 "r" (by decide)⟩

/-- C7: the gateway cache key is a deterministic function of the text,
operation and output-affecting parameters only: two requests agreeing on
that tuple get the same key in every run, whatever their user identity,
date or limit; and the key is a fixed-width 256-bit value. -/
theorem C7_fingerprint_user_independent (r1 r2 : Request)
    (ht : r1.text = r2.text) (ho : r1.operation = r2.operation)
    (hp : r1.params = r2.params) :
    r1.cacheKey = r2.cacheKey ∧ (r1.cacheKey : Nat) < 2 ^ 256 := by
  refine ⟨?_, r1.cacheKey.isLt⟩
  simp [Request.cacheKey, fingerprint, canonicalEncoding, ht, ho, hp]

/-- Witness for C7: two requests with identical content from different
users (ids 1 and 2, different dates and limits) map to the same key. -/
theorem C7_fingerprint_user_independent_witness :
    (Request.cacheKey ⟨1, 0, 1000, .detect, "hello", ⟨0, 100⟩⟩ =
      Request.cacheKey ⟨2, 7, 10000, .detect, "hello", ⟨0, 100⟩⟩) ∧
    (Request.cacheKey ⟨1, 0, 1000, .detect, "hello", ⟨0, 100⟩⟩ : Nat) < 2 ^ 256 :=
  C7_fingerprint_user_independent
    ⟨1, 0, 1000, .detect, "hello", ⟨0, 100⟩⟩
    ⟨2, 7, 10000, .detect, "hello", ⟨0, 100⟩⟩ rfl rfl rfl

/-! ### Claim theorems: Gateway -/

/-- In every branch past validation and quota-store availability, the
resulting ledger is exactly the one produced by the single `reserve`
step: no other part of the pipeline touches quota. -/
theorem process_ledger (infer : Operation → String → Params → InferOutcome)
    (now : Nat) (cacheUp : Bool) (st : GatewayState) (req : Request)
    (hv : validateRequest req = true) :
    ((process infer now true cacheUp st req).2.1).ledger =
      (reserve st.ledger req.key req.limit (wordCount req.text) req.operation).2 := by
  simp only [process, hv]
  cases hr : (reserve st.ledger req.key req.limit (wordCount req.text) req.operation).1 with
  | quotaExceeded r => simp
  | allowed r =>
    cases hc : (if cacheUp then
        cacheGet st.cache req.cacheKey now else none) with
    | some v => simp [GatewayState.finishRecords]
    | none =>
      cases hi : infer req.operation req.text req.params <;>
        simp [GatewayState.finishRecords]

/-- C4: every admitted request — whether the result then comes from the
cache or from inference, and whether inference succeeds, times out or
errors — charges the user's daily row exactly once: its total grows by
exactly the request's word count, and no other `(user, date)` row
changes. -/
theorem C4_admitted_charged_once (infer : Operation → String → Params → InferOutcome)
    (now : Nat) (cacheUp : Bool) (st : GatewayState) (req : Request)
    (hv : validateRequest req = true)
    (h : (st.ledger req.key).total < req.limit) :
    (((process infer now true cacheUp st req).2.1).ledger req.key).total =
        (st.ledger req.key).total + wordCount req.text ∧
    (∀ k2, k2 ≠ req.key →
        ((process infer now true cacheUp st req).2.1).ledger k2 = st.ledger k2) := by
  have hl := process_ledger infer now cacheUp st req hv
  constructor
  · rw [hl, reserve_allowed st.ledger req.key req.limit (wordCount req.text)
      req.operation h]
    simp [Ledger.update_same, DailyUsageRecord.total_addWords]
  · intro k2 hk2
    rw [hl]
    exact reserve_frame st.ledger req.key k2 req.limit (wordCount req.text)
      req.operation hk2

/-- C8: when the quota reservation rejects, the Gateway returns at once:
the result is `QuotaExceeded` with the remaining count, the state —
cache contents, metrics (error counters included), job records, logs and
ledger — is exactly the pre-request state, and the event trace is empty,
so no fingerprint was computed, no cache lookup made, no inference
called, and no error was recorded. -/
theorem C8_quota_exceeded_frame (infer : Operation → String → Params → InferOutcome)
    (now : Nat) (cacheUp : Bool) (st : GatewayState) (req : Request)
    (hv : validateRequest req = true)
    (h : req.limit ≤ (st.ledger req.key).total) :
    process infer now true cacheUp st req =
      (.quotaRejected ((req.limit : Int) - (st.ledger req.key).total), st, []) := by
  have hstep := reserve_exceeded st.ledger req.key req.limit (wordCount req.text)
    req.operation h
  simp [process, hv, hstep]

/-- C6: availability asymmetry.  With the cache store unreachable the
admitted request still proceeds and succeeds — the lookup reads as a
miss, the result comes from inference, and the `put` no-ops so the cache
is unchanged.  With the quota store unreachable the request fails closed:
it is explicitly rejected and nothing — ledger included — changes. -/
theorem C6_outage_modes (infer : Operation → String → Params → InferOutcome)
    (now : Nat) (cacheUp : Bool) (st : GatewayState) (req : Request) (payload : String)
    (hv : validateRequest req = true)
    (h : (st.ledger req.key).total < req.limit)
    (hi : infer req.operation req.text req.params = .success payload) :
    ((process infer now true false st req).1 = .ok payload false ∧
     ((process infer now true false st req).2.1).cache = st.cache) ∧
    process infer now false cacheUp st req = (.quotaStoreUnavailable, st, []) := by
  have hstep := reserve_allowed st.ledger req.key req.limit (wordCount req.text)
    req.operation h
  constructor
  · constructor <;> simp [process, hv, hstep, hi, GatewayState.finishRecords]
  · simp [process, hv]

/-- The preview keeps at most `PREVIEW_LEN` characters of the text. -/
theorem preview_length (t : String) : (preview t).length = min PREVIEW_LEN t.length :=
  List.length_take PREVIEW_LEN t.data

/-- Whatever branch a request takes, it either leaves the audit records
and logs alone or appends exactly one job record and one log line, both
carrying only the bounded preview of the input text. -/
theorem process_records (infer : Operation → String → Params → InferOutcome)
    (now : Nat) (quotaUp cacheUp : Bool) (st : GatewayState) (req : Request) :
    (((process infer now quotaUp cacheUp st req).2.1).jobs = st.jobs ∧
     ((process infer now quotaUp cacheUp st req).2.1).logs = st.logs) ∨
    (∃ s, ((process infer now quotaUp cacheUp st req).2.1).jobs =
            st.jobs ++ [⟨req.user_id, req.operation, preview req.text,
                         wordCount req.text, s⟩] ∧
          ((process infer now quotaUp cacheUp st req).2.1).logs =
            st.logs ++ [⟨req.operation, req.text.length, preview req.text⟩]) := by
  cases hv : validateRequest req with
  | false => left; simp [process, hv]
  | true =>
    cases quotaUp with
    | false => left; simp [process, hv]
    | true =>
      rcases hres : reserve st.ledger req.key req.limit (wordCount req.text)
          req.operation with ⟨res, led2⟩
      cases res with
      | quotaExceeded r => left; simp [process, hv, hres]
      | allowed r =>
        cases hc : (if cacheUp then cacheGet st.cache req.cacheKey now
            else none) with
        | some v =>
          right
          exact ⟨.completed, by simp [process, hv, hres, hc,
            GatewayState.finishRecords]⟩
        | none =>
          cases hi : infer req.operation req.text req.params with
          | success p =>
            right
            exact ⟨.completed, by simp [process, hv, hres, hc, hi,
              GatewayState.finishRecords]⟩
          | timeout =>
            right
            exact ⟨.failed, by simp [process, hv, hres, hc, hi,
              GatewayState.finishRecords]⟩
          | modelError =>
            right
            exact ⟨.failed, by simp [process, hv, hres, hc, hi,
              GatewayState.finishRecords]⟩

/-- C9: whatever the branch taken, every job record and every log line a
request adds carries only the bounded input preview; the preview never
exceeds `PREVIEW_LEN` characters, and for any input longer than
`PREVIEW_LEN` it differs from the raw input text — the full text is
never recorded. -/
theorem C9_preview_bounded (infer : Operation → String → Params → InferOutcome)
    (now : Nat) (quotaUp cacheUp : Bool) (st : GatewayState) (req : Request) :
    (∀ j ∈ ((process infer now quotaUp cacheUp st req).2.1).jobs,
        j ∈ st.jobs ∨ j.input_preview = preview req.text) ∧
    (∀ e ∈ ((process infer now quotaUp cacheUp st req).2.1).logs,
        e ∈ st.logs ∨ e.text_preview = preview req.text) ∧
    (∀ t : String, (preview t).length ≤ PREVIEW_LEN) ∧
    (∀ t : String, PREVIEW_LEN < t.length → preview t ≠ t) := by
  refine ⟨?_, ?_, fun t => ?_, fun t ht heq => ?_⟩
  · intro j hj
    rcases process_records infer now quotaUp cacheUp st req with
      ⟨hjobs, _⟩ | ⟨s, hjobs, _⟩
    · exact Or.inl (hjobs ▸ hj)
    · rw [hjobs] at hj
      rcases List.mem_append.mp hj with h | h
      · exact Or.inl h
      · rcases List.mem_singleton.mp h with rfl
        exact Or.inr rfl
  · intro e he
    rcases process_records infer now quotaUp cacheUp st req with
      ⟨_, hlogs⟩ | ⟨s, _, hlogs⟩
    · exact Or.inl (hlogs ▸ he)
    · rw [hlogs] at he
      rcases List.mem_append.mp he with h | h
      · exact Or.inl h
      · rcases List.mem_singleton.mp h with rfl
        exact Or.inr rfl
  · rw [preview_length]
    exact Nat.min_le_left _ _
  · have hlen := preview_length t
    rw [heq, Nat.min_eq_left (Nat.le_of_lt ht)] at hlen
    omega

/-- C10: a detect request is accepted by validation exactly when its text
length is between 1 and 20000 characters inclusive; any out-of-range
input is rejected with a validation error before quota reservation,
cache lookup or inference — the state is untouched (nothing is charged)
and the event trace is empty. -/
theorem C10_detect_validation (infer : Operation → String → Params → InferOutcome)
    (now : Nat) (quotaUp cacheUp : Bool) (st : GatewayState) (req : Request)
    (hop : req.operation = .detect) :
    (validateRequest req = true ↔
      (1 ≤ req.text.length ∧ req.text.length ≤ 20000)) ∧
    (validateRequest req = false →
      process infer now quotaUp cacheUp st req = (.validationFailed, st, [])) := by
  constructor
  · simp [validateRequest, hop, validDetectText, Bool.and_eq_true,
      decide_eq_true_iff]
  · intro hveq
    simp [process, hveq]

/-! ### Concrete inputs for the gateway witnesses -/

/-- An inference collaborator that always succeeds with payload `out`. -/
def inferOk : Operation → String → Params → InferOutcome :=
  fun _ _ _ => .success "out"

/-- The gateway state before any request. -/
def initState : GatewayState :=
  ⟨emptyLedger, emptyCache, ⟨0, 0, 0, 0⟩, [], []⟩

/-- A well-formed 11-character, 2-word detect request from user 1. -/
def sampleReq : Request :=
  ⟨1, 0, 1000, .detect, "hello world", ⟨0, 100⟩⟩

/-- A state in which user 1 has already reserved the full 1000-word
free-tier limit for date 0. -/
def fullState : GatewayState :=
  ⟨emptyLedger.update ⟨1, 0⟩ ⟨1000, 0⟩, emptyCache, ⟨0, 0, 0, 0⟩, [], []⟩

/-- A 60-character input, longer than the preview bound. -/
def longText : String :=
  "aaaaaaaaaaaaaaaaaaaaaaaaaaaaaaaaaaaaaaaaaaaaaaaaaaaaaaaaaaaa"

/-- Witness for C4: the admitted sample request charges user 1's day-0
row by exactly its word count and leaves user 2's row untouched, here on
the cache-miss inference path. -/
theorem C4_admitted_charged_once_witness :
    (((process inferOk 0 true true initState sampleReq).2.1).ledger
        sampleReq.key).total =
      (initState.ledger sampleReq.key).total + wordCount sampleReq.text ∧
    ((process inferOk 0 true true initState sampleReq).2.1).ledger ⟨2, 0⟩ =
      initState.ledger ⟨2, 0⟩ :=
  ⟨(C4_admitted_charged_once inferOk 0 true initState sampleReq (by decide)
      (by decide)).1,
   (C4_admitted_charged_once inferOk 0 true initState sampleReq (by decide)
      (by decide)).2 ⟨2, 0⟩ (by decide)⟩

/-- Witness for C8: with the free-tier limit already fully reserved, the
sample request is rejected with the remaining count and the state and
event trace are exactly the pre-request ones. -/
theorem C8_quota_exceeded_frame_witness :
    process inferOk 0 true true fullState sampleReq =
      (.quotaRejected ((sampleReq.limit : Int) -
          (fullState.ledger sampleReq.key).total), fullState, []) :=
  C8_quota_exceeded_frame inferOk 0 true fullState sampleReq (by decide) (by decide)

/-- Witness for C6: with the cache store down the admitted sample request
still succeeds from inference and the cache is unchanged; with the quota
store down the same request fails closed with the state untouched. -/
theorem C6_outage_modes_witness :
    ((process inferOk 0 true false initState sampleReq).1 = .ok "out" false ∧
     ((process inferOk 0 true false initState sampleReq).2.1).cache =
       initState.cache) ∧
    process inferOk 0 false true initState sampleReq =
      (.quotaStoreUnavailable, initState, []) :=
  C6_outage_modes inferOk 0 true initState sampleReq "out" (by decide) (by decide)
    rfl

/-- Witness for C9: the job record the sample request appends carries the
bounded preview, and the preview of a 60-character text differs from the
raw text. -/
theorem C9_preview_bounded_witness :
    ((⟨1, .detect, preview sampleReq.text, wordCount sampleReq.text,
        .completed⟩ : JobRecord) ∈ initState.jobs ∨
      (⟨1, .detect, preview sampleReq.text, wordCount sampleReq.text,
        .completed⟩ : JobRecord).input_preview = preview sampleReq.text) ∧
    preview longText ≠ longText :=
  ⟨(C9_preview_bounded inferOk 0 true true initState sampleReq).1 _ (by decide),
   (C9_preview_bounded inferOk 0 true true initState sampleReq).2.2.2 longText
     (by decide)⟩

/-- Witness for C10: the empty detect request is rejected by validation
with the state untouched and no events. -/
theorem C10_detect_validation_witness :
    process inferOk 0 true true initState ⟨1, 0, 1000, .detect, "", ⟨0, 100⟩⟩ =
      (.validationFailed, initState, []) :=
  (C10_detect_validation inferOk 0 true true initState
    ⟨1, 0, 1000, .detect, "", ⟨0, 100⟩⟩ rfl).2 (by decide)

end RewriteGuard
